import Mathlib

/-!
# Verification of the offer lifecycle and analysis-record store

A shallow embedding, in Lean 4, of the core of the `job-set-match`
repository: the JSON-backed analysis ledger (`src/helpers/data_handler.py`,
class `DataHandler`) and the offer file manager
(`src/helpers/file_manager.py` and `src/app/core/file_manager.py`,
class `FileManager`), together with proofs about the specified behaviour.

The ledger operates on a dynamically-typed JSON document held as a Python
object tree.  We embed the relevant fragment of Python's value model as
`PyVal` (numbers are `ℚ`, which is exact for every arithmetic operation the
source performs; the source only ever adds costs), and each Python statement
of the source becomes one explicit step that either produces the updated
document or raises one of the Python errors the source can raise
(`KeyError`, `IndexError`, `TypeError`, `AttributeError`).  A raised error
propagates to the source's `try`/`except` handler, which logs and returns
`False` with the document as it stood at the raise point — Python does not
roll back mutations made by earlier statements, and neither does the model.

Filesystem state is embedded as a finite map from paths (directory × name)
to file sizes; disk persistence outcomes and PDF-compression results are
oracle parameters, since they depend on the environment.
-/

namespace JobSetMatch

/-- Python errors that the modelled code can raise. -/
inductive PyErr where
  | keyError
  | indexError
  | typeError
  | attrError
deriving DecidableEq, Repr

/-- The fragment of Python's value model used by the ledger document:
JSON-like trees.  Numbers are modelled by `ℚ`; the source only ever adds
costs and counters, so rational arithmetic is exact for every operation
performed (the claims sanction exact rational arithmetic explicitly). -/
inductive PyVal where
  | num (q : ℚ)
  | str (s : String)
  | bool (b : Bool)
  | pynone
  | list (xs : List PyVal)
  | dict (kvs : List (String × PyVal))

namespace PyVal

/-- First-match association-list lookup, the order-preserving model of a
Python `dict` read. -/
def dictGet? : List (String × PyVal) → String → Option PyVal
  | [], _ => none
  | (k, v) :: rest, key => if k = key then some v else dictGet? rest key

/-- In-place update of a Python `dict`: replaces the value of an existing
key (keeping its position), appends the pair otherwise. -/
def dictSet : List (String × PyVal) → String → PyVal → List (String × PyVal)
  | [], key, v => [(key, v)]
  | (k, w) :: rest, key, v =>
    if k = key then (k, v) :: rest else (k, w) :: dictSet rest key v

/-- Python `x[key]` for a string key: `KeyError` on a missing key, `TypeError`
when `x` is not a dict (string indexing by `str` is also a `TypeError`). -/
def getItem : PyVal → String → Except PyErr PyVal
  | dict kvs, key =>
    match dictGet? kvs key with
    | some v => .ok v
    | none => .error .keyError
  | _, _ => .error .typeError

/-- Python `x[key] = v`: only modelled for dicts (the source only assigns into
dicts); `TypeError` otherwise. -/
def setItem : PyVal → String → PyVal → Except PyErr PyVal
  | dict kvs, key, v => .ok (dict (dictSet kvs key v))
  | _, _, _ => .error .typeError

/-- Python `x[-1]`: last element of a list (`IndexError` when empty); a dict
raises `KeyError` for the key `-1`; other values raise `TypeError`. -/
def getLastItem : PyVal → Except PyErr PyVal
  | list xs =>
    match xs.getLast? with
    | some v => .ok v
    | none => .error .indexError
  | dict _ => .error .keyError
  | _ => .error .typeError

/-- Python `x[-1] = v` (used to model write-back of an in-place mutation of the
last element reached through `x[-1]`). -/
def setLastItem : PyVal → PyVal → Except PyErr PyVal
  | list xs, v =>
    match xs with
    | [] => .error .indexError
    | _ :: _ => .ok (list (xs.dropLast ++ [v]))
  | dict _, _ => .error .keyError
  | _, _ => .error .typeError

/-- Python `x.append(v)`: appends to a list; anything else has no `append`
attribute, hence `AttributeError`. -/
def pyAppend : PyVal → PyVal → Except PyErr PyVal
  | list xs, v => .ok (list (xs ++ [v]))
  | _, _ => .error .attrError

/-- Python `+` on the values the source adds: numbers add, strings
concatenate, everything else is a `TypeError`. -/
def pyAdd : PyVal → PyVal → Except PyErr PyVal
  | num a, num b => .ok (num (a + b))
  | str a, str b => .ok (str (a ++ b))
  | _, _ => .error .typeError

/-- Python `x.get(key, default)`: defined on dicts; any other receiver has no
`get` attribute, hence `AttributeError`. -/
def pyGet (x : PyVal) (key : String) (dflt : PyVal) : Except PyErr PyVal :=
  match x with
  | dict kvs => .ok ((dictGet? kvs key).getD dflt)
  | _ => .error .attrError

/-- Python truthiness (`not x` in the source): empty containers, empty
strings, zero, `False` and `None` are falsy. -/
def pyFalsy : PyVal → Bool
  | num q => q = 0
  | str s => s.isEmpty
  | bool b => !b
  | pynone => true
  | list xs => xs.isEmpty
  | dict kvs => kvs.isEmpty

/-- Python `d[key] += v` on a dict `d`: read (`KeyError` possible), add
(`TypeError` possible), write back in place. -/
def addToKey (d : PyVal) (key : String) (v : PyVal) : Except PyErr PyVal := do
  let cur ← d.getItem key
  let s ← pyAdd cur v
  d.setItem key s

end PyVal

open PyVal

/-! ## The analysis ledger (`src/helpers/data_handler.py`, class `DataHandler`)

Each operation takes the in-memory document `self.data`, the wall-clock
reading used for `datetime.now().isoformat()` (a `String` parameter — the
ledger never computes with it), and a `saveOk : Bool` oracle for the
outcome of `save` (`save` catches every write exception internally and
returns `False`, so at this boundary it is exactly a boolean environment
outcome; it never modifies the in-memory document). -/

/-- The batch object `{"timestamp": ..., "offers": [...]}` built by
`_initialize_data` and `clear_analyses`. -/
def mkBatch (ts : String) (offers : List PyVal) : PyVal :=
  .dict [("timestamp", .str ts), ("offers", .list offers)]

/-- The api_usage object in the key order `_initialize_data` creates and
every mutation preserves. -/
def mkUsage (tc ac cc rc : ℚ) : PyVal :=
  .dict [("total_cost", .num tc), ("analysis_costs", .num ac),
         ("cover_letter_costs", .num cc), ("requests_count", .num rc)]

/-- A ledger document in the shape `_initialize_data` creates and every
mutation preserves: `{"timestamp": ..., "analyses": [...], "api_usage": ...}`. -/
def mkDoc (ts : String) (batches : List PyVal) (tc ac cc rc : ℚ) : PyVal :=
  .dict [("timestamp", .str ts), ("analyses", .list batches),
         ("api_usage", mkUsage tc ac cc rc)]

/-- Models `DataHandler._initialize_data`: one empty batch, zeroed usage counters. -/
def initializeData (now : String) : PyVal :=
  mkDoc now [mkBatch now []] 0 0 0 0

/-- Models the statement `self.data["analyses"][-1]["offers"].append(x)`
(line 99 of `data_handler.py`): read down the path, append in place,
which functionally is a write-back up the same path.  Any raise leaves the
document unchanged (the single mutation is the final list append). -/
def appendToLastBatch (data x : PyVal) : Except PyErr PyVal := do
  let analyses ← data.getItem "analyses"
  let last ← analyses.getLastItem
  let offers ← last.getItem "offers"
  let offers2 ← offers.pyAppend x
  let last2 ← last.setItem "offers" offers2
  let analyses2 ← analyses.setLastItem last2
  data.setItem "analyses" analyses2

/-- Models `self.data["api_usage"][bucket] += v`
(lines 100-102 / 120-122): read `api_usage`, add into the bucket in
place, write back.  A raise leaves the document unchanged (the mutation
is the final write-back). -/
def bumpUsage (data : PyVal) (bucket : String) (v : PyVal) : Except PyErr PyVal := do
  let au ← data.getItem "api_usage"
  let au2 ← au.addToKey bucket v
  data.setItem "api_usage" au2

/-- Models `DataHandler.add_analysis(analysis)` (lines 87-107).  Returns the
boolean result and the in-memory document after the call.  A raise at any
statement is caught by the `except` handler, which returns `False` with
the document exactly as the already-executed statements left it — Python
performs no rollback. -/
def addAnalysis (data analysis : PyVal) (now : String) (saveOk : Bool) :
    Bool × PyVal :=
  match appendToLastBatch data analysis with
  | .error _ => (false, data)
  | .ok d1 =>
    match analysis.pyGet "analysis_cost" (.num 0) with
    | .error _ => (false, d1)
    | .ok c =>
      match bumpUsage d1 "analysis_costs" c with
      | .error _ => (false, d1)
      | .ok d2 =>
        match bumpUsage d2 "total_cost" c with
        | .error _ => (false, d2)
        | .ok d3 =>
          match bumpUsage d3 "requests_count" (.num 1) with
          | .error _ => (false, d3)
          | .ok d4 =>
            match d4.setItem "timestamp" (.str now) with
            | .error _ => (false, d4)
            | .ok d5 => (saveOk, d5)

/-- Models `DataHandler.add_cover_letter_cost(cost)` (lines 109-127); `cost` is a
Python float, modelled exactly in `ℚ`. -/
def addCoverLetterCost (data : PyVal) (cost : ℚ) (now : String) (saveOk : Bool) :
    Bool × PyVal :=
  match bumpUsage data "cover_letter_costs" (.num cost) with
  | .error _ => (false, data)
  | .ok d1 =>
    match bumpUsage d1 "total_cost" (.num cost) with
    | .error _ => (false, d1)
    | .ok d2 =>
      match bumpUsage d2 "requests_count" (.num 1) with
      | .error _ => (false, d2)
      | .ok d3 =>
        match d3.setItem "timestamp" (.str now) with
        | .error _ => (false, d3)
        | .ok d4 => (saveOk, d4)

/-- Loop body of `DataHandler.get_analysis` (lines 140-143):
`offer["file_name"] == file_name` compares a `PyVal` against a Python
string — equal exactly for the equal `str` value; a raise inside the loop
(e.g. a non-dict offer) is caught by the handler, which returns `None`. -/
def findOffer (fileName : String) : List PyVal → Option PyVal
  | [] => none
  | o :: rest =>
    match o.getItem "file_name" with
    | .error _ => none
    | .ok v =>
      match v with
      | .str s => if s = fileName then some o else findOffer fileName rest
      | _ => findOffer fileName rest

/-- Models `DataHandler.get_analysis(file_name)` (lines 129-146): linear search
of the last batch's offers; every raise is absorbed into `None`.  When the
offers value is not a list, iterating it either raises (caught → `None`)
or, for a dict/str, yields keys/characters whose `["file_name"]` raises
(caught → `None`); all such receivers therefore return `None`. -/
def getAnalysis (data : PyVal) (fileName : String) : Option PyVal :=
  match (do
      let analyses ← data.getItem "analyses"
      let last ← analyses.getLastItem
      last.getItem "offers") with
  | .error _ => none
  | .ok (.list offers) => findOffer fileName offers
  | .ok _ => none

/-- Models `DataHandler.get_all_analyses()` (lines 148-160): returns the last
batch's offers; `IndexError`/`KeyError` are caught and yield `[]`, any
other raise (a `TypeError` from indexing a non-sequence) propagates. -/
def getAllAnalyses (data : PyVal) : Except PyErr PyVal :=
  match data.getItem "analyses" with
  | .error e =>
    if e = .indexError ∨ e = .keyError then .ok (.list []) else .error e
  | .ok a =>
    if a.pyFalsy then .ok (.list [])
    else
      match (do
          let analyses ← data.getItem "analyses"
          let last ← analyses.getLastItem
          last.getItem "offers") with
      | .error e =>
        if e = .indexError ∨ e = .keyError then .ok (.list []) else .error e
      | .ok v => .ok v

/-- Models `DataHandler.clear_analyses(batch)` (lines 171-201).  Returns
`(result, document, saveAttempted)`: the boolean result, the in-memory
document after the call, and whether `save` was reached.  The `"last"`
arm executes `self.data["analyses"][-1].append(new_batch)`: the append
targets the last element itself, an operation that only list values
support. -/
def clearAnalyses (data : PyVal) (now : String) (batchArg : String) (saveOk : Bool) :
    Bool × PyVal × Bool :=
  let newBatch := mkBatch now []
  if batchArg = "last" then
    match (do
        let analyses ← data.getItem "analyses"
        let last ← analyses.getLastItem
        let last2 ← last.pyAppend newBatch
        let analyses2 ← analyses.setLastItem last2
        data.setItem "analyses" analyses2) with
    | .error _ => (false, data, false)
    | .ok d1 =>
      match d1.setItem "timestamp" (.str now) with
      | .error _ => (false, d1, false)
      | .ok d2 => (saveOk, d2, true)
  else
    match (do
        let analyses ← data.getItem "analyses"
        let analyses2 ← analyses.pyAppend newBatch
        data.setItem "analyses" analyses2) with
    | .error _ => (false, data, false)
    | .ok d1 =>
      match d1.setItem "timestamp" (.str now) with
      | .error _ => (false, d1, false)
      | .ok d2 => (saveOk, d2, true)

/-! ## The offer file manager

`src/helpers/file_manager.py` and `src/app/core/file_manager.py`, class
`FileManager`.  A path is a directory plus a file name (`parent / name`);
filesystem contents are a map from paths to file sizes in bytes.  The
modification-time scan of `cleanup_old_files` gets its own per-file model
further down. -/

/-- A filesystem path: `file_path.parent` and `file_path.name`. -/
structure FPath where
  dir : String
  name : String
deriving DecidableEq, Repr

/-- Filesystem contents: which files exist and their sizes in bytes. -/
def FSt := FPath → Option ℕ

/-- Point update of filesystem contents. -/
def FSt.upd (fs : FSt) (p : FPath) (v : Option ℕ) : FSt :=
  fun q => if q = p then v else fs q

/-- Models `helpers/file_manager.py` line 61: `st_size <= self.max_file_size_bytes`
with `max_file_size_bytes = max_file_size_mb * 1024 * 1024` (integer
comparison). -/
def validateFileSizeH (maxMB sz : ℕ) : Bool :=
  sz ≤ maxMB * 1024 * 1024

/-- Models `app/core/file_manager.py` lines 83-85:
`file_size_mb = st_size / (1024 * 1024); file_size_mb <= max_file_size_mb`.
The Python float division by `1024 * 1024 = 2^20` is exact in IEEE double
precision for every file size below `2^53` bytes (dividing by a power of
two only shifts the exponent), so the rational comparison is the exact
behaviour of the float comparison for all realizable sizes. -/
def validateFileSizeC (maxMB sz : ℕ) : Bool :=
  (sz : ℚ) / (1024 * 1024) ≤ (maxMB : ℚ)

/-- Models `shutil.move(src, dst)` when `src` exists: the content leaves `src`
and appears at `dst` (overwriting any previous `dst`). -/
def moveFile (fs : FSt) (src dst : FPath) : FSt :=
  match fs src with
  | some sz => (fs.upd src none).upd dst (some sz)
  | none => fs

/-- Models `FileManager.compress_pdf` (`app/core/file_manager.py` lines 87-136).
`readOk` is the oracle for whether `PdfReader`/`PdfWriter` processing
raises; `outSize` is the byte size the re-encode produces (both depend on
the PDF's contents, which the model does not inspect).  Returns the
result (`None` on failure) and the filesystem afterwards. -/
def compressPdf (maxMB : ℕ) (fs : FSt) (p : FPath) (readOk : Bool) (outSize : ℕ) :
    Option FPath × FSt :=
  match fs p with
  | none => (none, fs)
  | some sz =>
    if validateFileSizeC maxMB sz then (some p, fs)
    else if !readOk then (none, fs)
    else
      let cp : FPath := ⟨p.dir, "compressed_" ++ p.name⟩
      let fs1 := fs.upd cp (some outSize)
      if validateFileSizeC maxMB outSize then
        let fs2 := fs1.upd p none
        let fs3 := (fs2.upd cp none).upd p (some outSize)
        (some p, fs3)
      else
        (none, fs1.upd cp none)

/-- Models `FileManager.move_to_in_progress` (`app/core/file_manager.py` lines
159-188): require existence; if oversized, attempt compression and give
up when it fails; then move into `in_progress_dir` under the same name. -/
def moveToInProgress (inProgressDir : String) (maxMB : ℕ) (fs : FSt) (p : FPath)
    (readOk : Bool) (outSize : ℕ) : Option FPath × FSt :=
  match fs p with
  | none => (none, fs)
  | some sz =>
    if !validateFileSizeC maxMB sz then
      match compressPdf maxMB fs p readOk outSize with
      | (none, fs1) => (none, fs1)
      | (some p1, fs1) =>
        let dst : FPath := ⟨inProgressDir, p1.name⟩
        (some dst, moveFile fs1 p1 dst)
    else
      let dst : FPath := ⟨inProgressDir, p.name⟩
      (some dst, moveFile fs p dst)

/-- Models `FileManager.move_to_in_progress` (`helpers/file_manager.py` lines
84-109): this variant has no compression fallback — an oversized file is
rejected outright. -/
def moveToInProgressH (inProgressDir : String) (maxMB : ℕ) (fs : FSt) (p : FPath) :
    Option FPath × FSt :=
  match fs p with
  | none => (none, fs)
  | some sz =>
    if !validateFileSizeH maxMB sz then (none, fs)
    else
      let dst : FPath := ⟨inProgressDir, p.name⟩
      (some dst, moveFile fs p dst)

/-! ### Retention cleanup (`cleanup_old_files`, identical in both modules)

The archive scan only needs each file's name, its modification time and
whether its `unlink` succeeds, so it is modelled over a list of per-file
records in iteration order.  Timestamps are `ℚ` (exact for the float
subtraction `now - days*24*60*60` the source performs on integral-second
values). -/

/-- One archived PDF as the cleanup scan sees it: name, `st_mtime`, and an
oracle for whether `unlink()` raises on it. -/
structure ArchFile where
  name : String
  mtime : ℚ
  unlinkOk : Bool
deriving DecidableEq, Repr

/-- The `for` loop of `cleanup_old_files` (lines 163-166), which runs
inside a single `try`: a file older than the cutoff is unlinked; a raise
from `unlink` propagates to the handler outside the loop, so the failing
file and every file after it in iteration order survive.  Returns the
files remaining afterwards. -/
def cleanupScan (cutoff : ℚ) : List ArchFile → List ArchFile
  | [] => []
  | f :: rest =>
    if f.mtime < cutoff then
      if f.unlinkOk then cleanupScan cutoff rest
      else f :: rest
    else f :: cleanupScan cutoff rest

/-- Models `FileManager.cleanup_old_files` (lines 159-168):
`cutoff = now - cleanup_days * 24 * 60 * 60`, then the scan. -/
def cleanupOldFiles (cleanupDays : ℕ) (now : ℚ) (files : List ArchFile) :
    List ArchFile :=
  cleanupScan (now - cleanupDays * 24 * 60 * 60) files

/-! ### Filename standardization (`standardize_filename`, identical in both
modules)

`company` and `position` are lower-cased, characters outside
`[^\w\s-]`'s complement are removed, then every `' '` becomes `'_'`; the
new name is `f"{company}_{position}_{date}.pdf"` with a
second-resolution `%Y%m%d%H%M%S` timestamp, placed in the original
parent directory.  The character classes are modelled at ASCII scope,
which covers the inputs of the claim. -/

/-- Regex class `\w` at ASCII scope: letters, digits, underscore. -/
def wordCharB (c : Char) : Bool :=
  c.isAlphanum || c = '_'

/-- Regex class `\s` at ASCII scope: Python's whitespace class. -/
def spaceCharB (c : Char) : Bool :=
  c = ' ' || c = '\t' || c = '\n' || c = '\r' || c = '\x0b' || c = '\x0c'

/-- Models `re.sub(r'[^\w\s-]', '', s.lower()).replace(' ', '_')`
(lines 76-77): lower-case, keep only word/space/hyphen characters,
then turn each space into an underscore. -/
def cleanToken (s : String) : String :=
  String.mk (((s.toList.map Char.toLower).filter
      (fun c => wordCharB c || spaceCharB c || c = '-')).map
    (fun c => if c = ' ' then '_' else c))

/-- The standardized file name
`f"{company}_{position}_{date}.pdf"` (lines 78-81), with `ts` the
`%Y%m%d%H%M%S` rendering of "now". -/
def standardizeName (company position ts : String) : String :=
  cleanToken company ++ "_" ++ cleanToken position ++ "_" ++ ts ++ ".pdf"

/-- Models `FileManager.standardize_filename`: the standardized name in the
original file's parent directory (`file_path.parent / new_name`). -/
def standardizeFilename (p : FPath) (company position ts : String) : FPath :=
  ⟨p.dir, standardizeName company position ts⟩

/-- Models `FileManager.rename_after_analysis` (lines 134-157): require
existence, then `file_path.rename(new_path)` with the standardized name
in the same directory. -/
def renameAfterAnalysis (fs : FSt) (p : FPath) (company position ts : String) :
    Option FPath × FSt :=
  match fs p with
  | none => (none, fs)
  | some _ =>
    let np := standardizeFilename p company position ts
    (some np, moveFile fs p np)

/-- Decides whether `s` is `stem ++ "_" ++ d ++ ".pdf"` for some string
`d` of exactly 14 decimal digits — the shape `stem_\d{14}\.pdf`. -/
def matchesStd (stem s : String) : Bool :=
  let t := s.toList
  let pre := stem.toList ++ ['_']
  t.length = pre.length + 18 &&
  t.take pre.length = pre &&
  ((t.drop pre.length).take 14).all Char.isDigit &&
  t.drop (pre.length + 14) = ['.', 'p', 'd', 'f']

/-! ### The derived total score (`note_total`)

`app/core/analyzer.py` lines 166-171 and `app/helpers/analyzer.py` lines
737-743 both build `note_total` from the validated analysis response; the
ratings named below are the fields
`careerFitAnalysis.careerDevelopmentRating`,
`profileMatchAssessment.matchCompatibilityRating`,
`competitiveProfile.successProbabilityRating` and
`strategicRecommendations.shouldApply.chanceRating` of that response. -/

/-- The four ratings of an analysis response that the `note_total`
formulas read. -/
structure RatingSet where
  careerDevelopmentRating : ℚ
  matchCompatibilityRating : ℚ
  successProbabilityRating : ℚ
  chanceRating : ℚ
deriving DecidableEq, Repr

/-- Formula for `note_total` as computed in `app/core/analyzer.py` (three ratings). -/
def noteTotalCore (r : RatingSet) : ℚ :=
  r.careerDevelopmentRating + r.matchCompatibilityRating
    + r.successProbabilityRating

/-- Formula for `note_total` as computed in `app/helpers/analyzer.py` (the same three
plus the should-apply chance rating). -/
def noteTotalHelpers (r : RatingSet) : ℚ :=
  r.careerDevelopmentRating + r.matchCompatibilityRating
    + r.successProbabilityRating + r.chanceRating

/-! ## The cost-accounting invariant and operation sequences -/

/-- A document in the shape the implementation maintains whose api_usage
satisfies `total_cost = analysis_costs + cover_letter_costs`.  Freshly
initialized documents satisfy it, and a "loaded" ledger is a document a
previous run saved, hence also of this form. -/
def LedgerInv (d : PyVal) : Prop :=
  ∃ ts bs tc ac cc rc, d = mkDoc ts bs tc ac cc rc ∧ tc = ac + cc

/-- One cost-adding ledger call: `add_analysis(record)` or
`add_cover_letter_cost(cost)`, with its clock reading and save outcome. -/
inductive LedgerOp where
  | analysisOp (record : PyVal) (now : String) (saveOk : Bool)
  | coverOp (cost : ℚ) (now : String) (saveOk : Bool)

/-- The in-memory document after one ledger call. -/
def applyOp (d : PyVal) : LedgerOp → PyVal
  | .analysisOp r now saveOk => (addAnalysis d r now saveOk).2
  | .coverOp c now saveOk => (addCoverLetterCost d c now saveOk).2

/-- The in-memory document after a sequence of ledger calls. -/
def runOps (d : PyVal) : List LedgerOp → PyVal
  | [] => d
  | op :: ops => runOps (applyOp d op) ops

/-! ## Concrete fixtures used by witnesses -/

/-- A one-file filesystem fixture: `new/offer.pdf`, 1000 bytes. -/
def smallFs : FSt :=
  fun q => if q = (⟨"new", "offer.pdf"⟩ : FPath) then some 1000 else none

/-- A one-file filesystem fixture: `new/offer.pdf`, 11 MiB (over a 10 MB
limit). -/
def oversizedFs : FSt :=
  fun q => if q = (⟨"new", "offer.pdf"⟩ : FPath) then some 11534336 else none

/-! ## Computation lemmas for documents in implementation shape -/

@[simp]
theorem getItem_mkDoc_analyses (ts : String) (bs : List PyVal) (tc ac cc rc : ℚ) :
    (mkDoc ts bs tc ac cc rc).getItem "analyses" = .ok (.list bs) := rfl

@[simp]
theorem getItem_mkDoc_usage (ts : String) (bs : List PyVal) (tc ac cc rc : ℚ) :
    (mkDoc ts bs tc ac cc rc).getItem "api_usage" = .ok (mkUsage tc ac cc rc) := rfl

@[simp]
theorem setItem_mkDoc_analyses (ts : String) (bs bs2 : List PyVal) (tc ac cc rc : ℚ) :
    (mkDoc ts bs tc ac cc rc).setItem "analyses" (.list bs2) =
      .ok (mkDoc ts bs2 tc ac cc rc) := rfl

@[simp]
theorem setItem_mkDoc_timestamp (ts now : String) (bs : List PyVal) (tc ac cc rc : ℚ) :
    (mkDoc ts bs tc ac cc rc).setItem "timestamp" (.str now) =
      .ok (mkDoc now bs tc ac cc rc) := rfl

@[simp]
theorem setItem_mkDoc_usage (ts : String) (bs : List PyVal) (tc ac cc rc : ℚ)
    (u : PyVal) :
    (mkDoc ts bs tc ac cc rc).setItem "api_usage" u =
      .ok (.dict [("timestamp", .str ts), ("analyses", .list bs),
                  ("api_usage", u)]) := rfl

@[simp]
theorem getItem_mkBatch_offers (bts : String) (offers : List PyVal) :
    (mkBatch bts offers).getItem "offers" = .ok (.list offers) := rfl

@[simp]
theorem setItem_mkBatch_offers (bts : String) (offers : List PyVal) (v : PyVal) :
    (mkBatch bts offers).setItem "offers" v =
      .ok (.dict [("timestamp", .str bts), ("offers", v)]) := rfl

theorem addToKey_mkUsage_total (tc ac cc rc q : ℚ) :
    (mkUsage tc ac cc rc).addToKey "total_cost" (.num q) =
      .ok (mkUsage (tc + q) ac cc rc) := rfl

theorem addToKey_mkUsage_analysis (tc ac cc rc q : ℚ) :
    (mkUsage tc ac cc rc).addToKey "analysis_costs" (.num q) =
      .ok (mkUsage tc (ac + q) cc rc) := rfl

theorem addToKey_mkUsage_cover (tc ac cc rc q : ℚ) :
    (mkUsage tc ac cc rc).addToKey "cover_letter_costs" (.num q) =
      .ok (mkUsage tc ac (cc + q) rc) := rfl

theorem addToKey_mkUsage_requests (tc ac cc rc q : ℚ) :
    (mkUsage tc ac cc rc).addToKey "requests_count" (.num q) =
      .ok (mkUsage tc ac cc (rc + q)) := rfl

@[simp]
theorem bumpUsage_mkDoc_total (ts : String) (bs : List PyVal) (tc ac cc rc q : ℚ) :
    bumpUsage (mkDoc ts bs tc ac cc rc) "total_cost" (.num q) =
      .ok (mkDoc ts bs (tc + q) ac cc rc) := rfl

@[simp]
theorem bumpUsage_mkDoc_analysis (ts : String) (bs : List PyVal) (tc ac cc rc q : ℚ) :
    bumpUsage (mkDoc ts bs tc ac cc rc) "analysis_costs" (.num q) =
      .ok (mkDoc ts bs tc (ac + q) cc rc) := rfl

@[simp]
theorem bumpUsage_mkDoc_cover (ts : String) (bs : List PyVal) (tc ac cc rc q : ℚ) :
    bumpUsage (mkDoc ts bs tc ac cc rc) "cover_letter_costs" (.num q) =
      .ok (mkDoc ts bs tc ac (cc + q) rc) := rfl

@[simp]
theorem bumpUsage_mkDoc_requests (ts : String) (bs : List PyVal) (tc ac cc rc q : ℚ) :
    bumpUsage (mkDoc ts bs tc ac cc rc) "requests_count" (.num q) =
      .ok (mkDoc ts bs tc ac cc (rc + q)) := rfl

/-- Behaviour of `appendToLastBatch` on a document whose last batch is in batch shape:
the record is appended to that batch's offers and nothing else changes. -/
theorem appendToLastBatch_mkDoc (ts bts : String) (bs offers : List PyVal)
    (tc ac cc rc : ℚ) (x : PyVal) :
    appendToLastBatch (mkDoc ts (bs ++ [mkBatch bts offers]) tc ac cc rc) x =
      .ok (mkDoc ts (bs ++ [mkBatch bts (offers ++ [x])]) tc ac cc rc) := by
  simp only [appendToLastBatch, bind, Except.bind, getItem_mkDoc_analyses,
    PyVal.getLastItem, List.getLast?_concat, getItem_mkBatch_offers,
    PyVal.pyAppend, setItem_mkBatch_offers, PyVal.setLastItem,
    setItem_mkDoc_analyses]
  obtain ⟨b, rest, hbs⟩ :=
    List.exists_cons_of_ne_nil (l := bs ++ [mkBatch bts offers]) (by simp)
  have hdl : (b :: rest).dropLast = bs := by
    rw [← hbs, List.dropLast_concat]
  rw [hbs, hdl]
  rfl

/-! ## Claims -/

/-- C8: the two analyzer implementations' `note_total` formulas diverge:
`app/core/analyzer.py` sums the career-development, match-compatibility
and success-probability ratings, while `app/helpers/analyzer.py` adds the
should-apply chance rating as well, so the two computations agree exactly
when the chance rating is zero and differ otherwise. -/
theorem noteTotal_formulas_diverge (r : RatingSet) :
    noteTotalCore r = noteTotalHelpers r ↔ r.chanceRating = 0 := by
  unfold noteTotalCore noteTotalHelpers
  constructor
  · intro h; linarith
  · intro h; rw [h, add_zero]

/-- C7: both `validate_file_size` implementations accept exactly the files
of at most `max_file_size_mb × 1024²` bytes: the integer comparison of
`helpers/file_manager.py` and the division-based comparison of
`app/core/file_manager.py` agree everywhere (the float division by `2^20`
is exact), a file of exactly `m × 1024²` bytes passes both, and a file one
byte larger fails both. -/
theorem validateFileSize_boundary (m sz : ℕ) :
    (validateFileSizeH m sz = true ↔ sz ≤ m * 1024 * 1024) ∧
    validateFileSizeC m sz = validateFileSizeH m sz ∧
    validateFileSizeH m (m * 1024 * 1024) = true ∧
    validateFileSizeH m (m * 1024 * 1024 + 1) = false ∧
    validateFileSizeC m (m * 1024 * 1024) = true ∧
    validateFileSizeC m (m * 1024 * 1024 + 1) = false := by
  have key : ∀ n : ℕ, validateFileSizeC m n = validateFileSizeH m n := by
    intro n
    unfold validateFileSizeC validateFileSizeH
    have h20 : (0 : ℚ) < 1024 * 1024 := by norm_num
    simp only [decide_eq_decide]
    rw [div_le_iff₀ h20,
      show (m : ℚ) * (1024 * 1024) = ((m * 1024 * 1024 : ℕ) : ℚ) by push_cast; ring]
    exact Nat.cast_le
  refine ⟨by simp [validateFileSizeH], key sz, by simp [validateFileSizeH],
    by simp [validateFileSizeH], ?_, ?_⟩
  · rw [key]; simp [validateFileSizeH]
  · rw [key]; simp [validateFileSizeH]

/-- C6 counterexample: with a double space in the position, the
standardization replaces each space with its own underscore, so
`rename_after_analysis(file, "Acme Corp!", "Senior  Engineer")` produces
`acme_corp_senior__engineer_<14 digits>.pdf`, which does not match the
claimed pattern `acme_corp_senior_engineer_\d{14}\.pdf` (shown here at
the concrete timestamp `20250101120000`). -/
theorem standardize_double_space_cex :
    cleanToken "Senior  Engineer" = "senior__engineer" ∧
    standardizeName "Acme Corp!" "Senior  Engineer" "20250101120000" =
      "acme_corp_senior__engineer_20250101120000.pdf" ∧
    matchesStd "acme_corp_senior_engineer"
      (standardizeName "Acme Corp!" "Senior  Engineer" "20250101120000") = false := by
  refine ⟨by decide, ?_, by decide⟩
  show cleanToken "Acme Corp!" ++ "_" ++ cleanToken "Senior  Engineer" ++ "_"
      ++ "20250101120000" ++ ".pdf" = _
  decide

/-- Lemma: `String.append` acts as list append on the underlying characters. -/
theorem string_data_app (a b : String) : (a ++ b).data = a.data ++ b.data := by
  cases a; cases b; rfl

/-- C6 as amended by the counterexample: `rename_after_analysis` on an
existing file with company `"Acme Corp!"` and position
`"Senior  Engineer"` (two spaces) builds its name by lower-casing,
stripping non-word/non-space/non-hyphen characters and replacing each
space with an underscore, and with the 14-digit `%Y%m%d%H%M%S` timestamp
the result matches `acme_corp_senior__engineer_\d{14}\.pdf` (double
underscore) and stays in the same directory. -/
theorem rename_standardize_amended (ts : String) (fs : FSt) (p : FPath) (sz : ℕ)
    (hlen : ts.data.length = 14) (hdig : ts.data.all Char.isDigit = true)
    (hp : fs p = some sz) :
    standardizeName "Acme Corp!" "Senior  Engineer" ts =
      "acme_corp_senior__engineer_" ++ ts ++ ".pdf" ∧
    matchesStd "acme_corp_senior__engineer"
      (standardizeName "Acme Corp!" "Senior  Engineer" ts) = true ∧
    (renameAfterAnalysis fs p "Acme Corp!" "Senior  Engineer" ts).1 =
      some ⟨p.dir, standardizeName "Acme Corp!" "Senior  Engineer" ts⟩ := by
  have hstem : cleanToken "Acme Corp!" ++ "_" ++ cleanToken "Senior  Engineer" ++ "_"
      = "acme_corp_senior__engineer_" := by decide
  have hname : standardizeName "Acme Corp!" "Senior  Engineer" ts =
      "acme_corp_senior__engineer_" ++ ts ++ ".pdf" := by
    unfold standardizeName
    rw [hstem]
  refine ⟨hname, ?_, ?_⟩
  · rw [hname]
    have hdata : ("acme_corp_senior__engineer_" ++ ts ++ ".pdf").data =
        "acme_corp_senior__engineer_".data ++ ts.data ++ ".pdf".data := by
      rw [string_data_app, string_data_app]
    unfold matchesStd
    simp only [String.toList, hdata]
    have hpre : ("acme_corp_senior__engineer".data ++ ['_']) =
        "acme_corp_senior__engineer_".data := by rfl
    have hprelen : ("acme_corp_senior__engineer_".data).length = 27 := by rfl
    rw [hpre]
    have h1 : ("acme_corp_senior__engineer_".data ++ ts.data ++ ".pdf".data).length
        = 27 + 18 := by
      simp [List.length_append, hprelen, hlen]
    have h2 : ("acme_corp_senior__engineer_".data ++ ts.data ++ ".pdf".data).take
        ("acme_corp_senior__engineer_".data).length
        = "acme_corp_senior__engineer_".data := by
      rw [List.append_assoc]
      exact List.take_left _ _
    have h3 : ("acme_corp_senior__engineer_".data ++ ts.data ++ ".pdf".data).drop
        ("acme_corp_senior__engineer_".data).length = ts.data ++ ".pdf".data := by
      rw [List.append_assoc]
      exact List.drop_left _ _
    have h4 : (ts.data ++ ".pdf".data).take 14 = ts.data := List.take_left' hlen
    have h5 : ("acme_corp_senior__engineer_".data ++ ts.data ++ ".pdf".data).drop
        (("acme_corp_senior__engineer_".data).length + 14) = ".pdf".data := by
      rw [List.append_assoc]
      have : ("acme_corp_senior__engineer_".data).length + 14 =
          ("acme_corp_senior__engineer_".data ++ ts.data).length := by
        simp [List.length_append, hprelen, hlen]
      rw [hprelen] at this ⊢
      rw [← List.append_assoc, this]
      exact List.drop_left _ _
    rw [hprelen] at h2 h3 h5
    simp only [hprelen, h1, h2, h3, h4, h5, hdig]
    simp
  · unfold renameAfterAnalysis
    rw [hp]
    rfl

/-- Witness for the amended C6 at the timestamp `20250101120000` and a
concrete one-file filesystem. -/
theorem rename_standardize_amended_witness :
    standardizeName "Acme Corp!" "Senior  Engineer" "20250101120000" =
      "acme_corp_senior__engineer_" ++ "20250101120000" ++ ".pdf" ∧
    matchesStd "acme_corp_senior__engineer"
      (standardizeName "Acme Corp!" "Senior  Engineer" "20250101120000") = true ∧
    (renameAfterAnalysis smallFs ⟨"new", "offer.pdf"⟩ "Acme Corp!"
        "Senior  Engineer" "20250101120000").1 =
      some ⟨(⟨"new", "offer.pdf"⟩ : FPath).dir,
        standardizeName "Acme Corp!" "Senior  Engineer" "20250101120000"⟩ :=
  rename_standardize_amended "20250101120000" smallFs ⟨"new", "offer.pdf"⟩ 1000
    (by decide) (by decide) rfl

/-- C5 counterexample: `cleanup_old_files` wraps the whole scan loop in a
single `try`, so an `unlink` error on the first expired file aborts the
scan; here both files are older than the cutoff
(`2592001 - 30·24·60·60 = 1`), yet after the deletion error on
`old_a.pdf` the perfectly deletable `old_b.pdf` also remains. -/
theorem cleanup_error_aborts_cex :
    cleanupOldFiles 30 2592001
        [⟨"old_a.pdf", 0, false⟩, ⟨"old_b.pdf", 0, true⟩] =
      [⟨"old_a.pdf", 0, false⟩, ⟨"old_b.pdf", 0, true⟩] ∧
    (0 : ℚ) < 2592001 - 30 * 24 * 60 * 60 := by
  constructor
  · norm_num [cleanupOldFiles, cleanupScan]
  · norm_num

/-- C5 as amended by the counterexample: during `cleanup_expired` a
deletion error on one file is logged but aborts the scan — expired files
encountered before the failing one are deleted, while the failing file
and every file after it in iteration order remain. -/
theorem cleanup_error_aborts_amended (cutoff : ℚ) (pre post : List ArchFile)
    (f : ArchFile)
    (hpre : ∀ g ∈ pre, g.mtime < cutoff → g.unlinkOk = true)
    (hold : f.mtime < cutoff) (hfail : f.unlinkOk = false) :
    cleanupScan cutoff (pre ++ f :: post) =
      pre.filter (fun g => !decide (g.mtime < cutoff)) ++ f :: post := by
  induction pre with
  | nil => simp [cleanupScan, hold, hfail]
  | cons g rest ih =>
    have ih2 := ih (fun x hx => hpre x (List.mem_cons_of_mem g hx))
    by_cases hg : g.mtime < cutoff
    · have hgok := hpre g (List.mem_cons_self g rest) hg
      simp [cleanupScan, hg, hgok, ih2]
    · simp [cleanupScan, hg, ih2]

/-- Witness for the amended C5: with a fresh file first, a failing
expired file second and a deletable expired file third, the scan keeps
everything from the failure on. -/
theorem cleanup_error_aborts_amended_witness :
    cleanupScan 1 ([⟨"fresh.pdf", 5, true⟩] ++ ⟨"bad.pdf", 0, false⟩ ::
        [⟨"old.pdf", 0, true⟩]) =
      [⟨"fresh.pdf", 5, true⟩].filter (fun g => !decide (g.mtime < 1)) ++
        ⟨"bad.pdf", 0, false⟩ :: [⟨"old.pdf", 0, true⟩] :=
  cleanup_error_aborts_amended 1 [⟨"fresh.pdf", 5, true⟩] [⟨"old.pdf", 0, true⟩]
    ⟨"bad.pdf", 0, false⟩ (by norm_num) (by norm_num) rfl

/-- C9: on every document in the shape the implementation produces — the
`analyses` entry is a list whose last element is a batch object (a dict) —
`clear_analyses(batch="last")` executes
`self.data["analyses"][-1].append(...)`, which raises `AttributeError`
(dicts have no `append`) before anything is mutated; the handler returns
`False`, the document is unchanged, and `save` is never reached. -/
theorem clearAnalyses_last_noop (data : PyVal) (kvs : List (String × PyVal))
    (bs : List PyVal) (bkvs : List (String × PyVal)) (now : String) (saveOk : Bool)
    (hdoc : data = .dict kvs)
    (han : PyVal.dictGet? kvs "analyses" = some (.list bs))
    (hlast : bs.getLast? = some (.dict bkvs)) :
    clearAnalyses data now "last" saveOk = (false, data, false) := by
  subst hdoc
  unfold clearAnalyses
  simp only [if_pos rfl, bind, Except.bind, PyVal.getItem, han, PyVal.getLastItem,
    hlast, PyVal.pyAppend]
  simp

/-- Witness for C9 on the freshly initialized document. -/
theorem clearAnalyses_last_noop_witness :
    clearAnalyses (initializeData "t0") "t1" "last" true =
      (false, initializeData "t0", false) :=
  clearAnalyses_last_noop (initializeData "t0")
    [("timestamp", .str "t0"), ("analyses", .list [mkBatch "t0" []]),
     ("api_usage", mkUsage 0 0 0 0)]
    [mkBatch "t0" []] [("timestamp", .str "t0"), ("offers", .list [])]
    "t1" true rfl rfl rfl

/-- C10: when the record has no `analysis_cost` key, `add_analysis` still
succeeds (persist succeeding): `analysis.get("analysis_cost", 0.0)`
yields the default `0.0`, so the record is appended to the last batch,
`analysis_costs` and `total_cost` are unchanged (increased by zero),
`requests_count` goes up by one, the top-level timestamp is refreshed,
and the call returns `True`. -/
theorem addAnalysis_missing_cost (ts bts now : String) (bs offers : List PyVal)
    (tc ac cc rc : ℚ) (akvs : List (String × PyVal))
    (hmiss : PyVal.dictGet? akvs "analysis_cost" = none) :
    addAnalysis (mkDoc ts (bs ++ [mkBatch bts offers]) tc ac cc rc)
        (.dict akvs) now true =
      (true, mkDoc now (bs ++ [mkBatch bts (offers ++ [.dict akvs])])
        tc ac cc (rc + 1)) := by
  simp only [addAnalysis, appendToLastBatch_mkDoc, PyVal.pyGet, hmiss, Option.getD,
    bumpUsage_mkDoc_analysis, bumpUsage_mkDoc_total, bumpUsage_mkDoc_requests,
    setItem_mkDoc_timestamp, add_zero]

/-- Witness for C10: a record with only a `file_name` field. -/
theorem addAnalysis_missing_cost_witness :
    addAnalysis (mkDoc "t0" [mkBatch "t0" []] 0 0 0 0)
        (.dict [("file_name", .str "a.pdf")]) "t1" true =
      (true, mkDoc "t1" [mkBatch "t0" [.dict [("file_name", .str "a.pdf")]]]
        0 0 0 1) := by
  simpa using addAnalysis_missing_cost "t0" "t0" "t1" [] []
    0 0 0 0 [("file_name", .str "a.pdf")] rfl

/-- C4: when the persist step fails, `add_analysis` returns `False`
without raising, but the in-memory document has already been fully
mutated: the record is appended to the last batch, `analysis_costs` and
`total_cost` grew by the record's `analysis_cost`, `requests_count` was
incremented and the timestamp refreshed — the operation is not atomic
with respect to persistence failure. -/
theorem addAnalysis_persist_failure (ts bts now : String) (bs offers : List PyVal)
    (tc ac cc rc c : ℚ) (akvs : List (String × PyVal))
    (hc : PyVal.dictGet? akvs "analysis_cost" = some (.num c)) :
    addAnalysis (mkDoc ts (bs ++ [mkBatch bts offers]) tc ac cc rc)
        (.dict akvs) now false =
      (false, mkDoc now (bs ++ [mkBatch bts (offers ++ [.dict akvs])])
        (tc + c) (ac + c) cc (rc + 1)) := by
  simp only [addAnalysis, appendToLastBatch_mkDoc, PyVal.pyGet, hc, Option.getD,
    bumpUsage_mkDoc_analysis, bumpUsage_mkDoc_total, bumpUsage_mkDoc_requests,
    setItem_mkDoc_timestamp]

/-- Witness for C4: a record costing 3, with the save outcome `False`. -/
theorem addAnalysis_persist_failure_witness :
    addAnalysis (mkDoc "t0" [mkBatch "t0" []] 0 0 0 0)
        (.dict [("file_name", .str "a.pdf"), ("analysis_cost", .num 3)])
        "t1" false =
      (false, mkDoc "t1"
        [mkBatch "t0" [.dict [("file_name", .str "a.pdf"),
          ("analysis_cost", .num 3)]]] 3 3 0 1) := by
  simpa using addAnalysis_persist_failure "t0" "t0" "t1" [] [] 0 0 0 0 3
    [("file_name", .str "a.pdf"), ("analysis_cost", .num 3)] rfl

/-- C3: `clear_analyses()` in its default clear-all mode appends a fresh
empty batch (which becomes the current batch), refreshes the timestamp,
and persists; afterwards `get_all_analyses` returns the empty sequence
and `get_analysis(name)` returns `None` for every name, while all prior
batches — and hence every record added before the clear — remain
untouched in the document's `analyses` list. -/
theorem clearAnalyses_soft_reset (ts now : String) (bs : List PyVal)
    (tc ac cc rc : ℚ) (saveOk : Bool) :
    clearAnalyses (mkDoc ts bs tc ac cc rc) now "all" saveOk =
      (saveOk, mkDoc now (bs ++ [mkBatch now []]) tc ac cc rc, true) ∧
    getAllAnalyses (mkDoc now (bs ++ [mkBatch now []]) tc ac cc rc) =
      .ok (.list []) ∧
    ∀ name, getAnalysis (mkDoc now (bs ++ [mkBatch now []]) tc ac cc rc) name
      = none := by
  refine ⟨?_, ?_, ?_⟩
  · unfold clearAnalyses
    simp only [bind, Except.bind, getItem_mkDoc_analyses, PyVal.pyAppend,
      setItem_mkDoc_analyses, setItem_mkDoc_timestamp]
    rw [if_neg (by decide)]
  · unfold getAllAnalyses
    simp only [bind, Except.bind, getItem_mkDoc_analyses, PyVal.pyFalsy,
      PyVal.getLastItem, List.getLast?_concat, getItem_mkBatch_offers]
    simp
  · intro name
    unfold getAnalysis
    simp only [bind, Except.bind, getItem_mkDoc_analyses, PyVal.getLastItem,
      List.getLast?_concat, getItem_mkBatch_offers]
    rfl

/-- When `appendToLastBatch` succeeds on a document in implementation
shape, the result is the same document with some new batch list: the
timestamp and all api_usage fields are untouched. -/
theorem appendToLastBatch_ok_shape (ts : String) (bs : List PyVal)
    (tc ac cc rc : ℚ) (x d1 : PyVal)
    (h : appendToLastBatch (mkDoc ts bs tc ac cc rc) x = .ok d1) :
    ∃ bs2, d1 = mkDoc ts bs2 tc ac cc rc := by
  unfold appendToLastBatch at h
  simp only [bind, Except.bind, getItem_mkDoc_analyses] at h
  cases hl : bs.getLast? with
  | none =>
    simp only [PyVal.getLastItem, hl] at h
    exact Except.noConfusion h
  | some last =>
    simp only [PyVal.getLastItem, hl] at h
    cases hoff : last.getItem "offers" with
    | error e =>
      simp only [hoff] at h
      exact Except.noConfusion h
    | ok offv =>
      simp only [hoff] at h
      cases hap : offv.pyAppend x with
      | error e =>
        simp only [hap] at h
        exact Except.noConfusion h
      | ok off2 =>
        simp only [hap] at h
        cases hset : last.setItem "offers" off2 with
        | error e =>
          simp only [hset] at h
          exact Except.noConfusion h
        | ok last2 =>
          simp only [hset] at h
          cases bs with
          | nil => simp at hl
          | cons b bt =>
            simp only [PyVal.setLastItem, setItem_mkDoc_analyses] at h
            exact ⟨(b :: bt).dropLast ++ [last2], by
              simpa using h.symm⟩

/-- When `self.data["api_usage"]["analysis_costs"] += v` succeeds on a
document in implementation shape, `v` was a number and exactly the
`analysis_costs` bucket grew by it. -/
theorem bumpUsage_analysis_ok_shape (ts : String) (bs : List PyVal)
    (tc ac cc rc : ℚ) (v d2 : PyVal)
    (h : bumpUsage (mkDoc ts bs tc ac cc rc) "analysis_costs" v = .ok d2) :
    ∃ q, v = .num q ∧ d2 = mkDoc ts bs tc (ac + q) cc rc := by
  cases v with
  | num q =>
    rw [bumpUsage_mkDoc_analysis] at h
    exact ⟨q, rfl, by simpa using h.symm⟩
  | str s =>
    rw [show bumpUsage (mkDoc ts bs tc ac cc rc) "analysis_costs" (.str s)
      = .error .typeError from rfl] at h
    exact absurd h (by simp)
  | bool b =>
    rw [show bumpUsage (mkDoc ts bs tc ac cc rc) "analysis_costs" (.bool b)
      = .error .typeError from rfl] at h
    exact absurd h (by simp)
  | pynone =>
    rw [show bumpUsage (mkDoc ts bs tc ac cc rc) "analysis_costs" .pynone
      = .error .typeError from rfl] at h
    exact absurd h (by simp)
  | list xs =>
    rw [show bumpUsage (mkDoc ts bs tc ac cc rc) "analysis_costs" (.list xs)
      = .error .typeError from rfl] at h
    exact absurd h (by simp)
  | dict kvs =>
    rw [show bumpUsage (mkDoc ts bs tc ac cc rc) "analysis_costs" (.dict kvs)
      = .error .typeError from rfl] at h
    exact absurd h (by simp)

/-- Behaviour of `add_cover_letter_cost` on a document in implementation shape:
`cover_letter_costs` and `total_cost` both grow by the cost,
`requests_count` by one, the timestamp is refreshed, and the save outcome
is returned. -/
theorem addCoverLetterCost_mkDoc (ts now : String) (bs : List PyVal)
    (tc ac cc rc cost : ℚ) (saveOk : Bool) :
    addCoverLetterCost (mkDoc ts bs tc ac cc rc) cost now saveOk =
      (saveOk, mkDoc now bs (tc + cost) ac (cc + cost) (rc + 1)) := by
  simp only [addCoverLetterCost, bumpUsage_mkDoc_cover, bumpUsage_mkDoc_total,
    bumpUsage_mkDoc_requests, setItem_mkDoc_timestamp]

/-- C1: the api_usage invariant
`total_cost = analysis_costs + cover_letter_costs` holds of a freshly
initialized ledger and is preserved — exactly, over rational arithmetic —
by every `add_analysis` and `add_cover_letter_cost` call, hence it holds
after every mutation of any call sequence started from an initialized or
previously-produced (loaded) document. -/
theorem apiUsage_total_invariant :
    (∀ t, LedgerInv (initializeData t)) ∧
    (∀ d op, LedgerInv d → LedgerInv (applyOp d op)) ∧
    (∀ d ops, LedgerInv d → LedgerInv (runOps d ops)) := by
  have hinit : ∀ t, LedgerInv (initializeData t) := fun t =>
    ⟨t, [mkBatch t []], 0, 0, 0, 0, rfl, by norm_num⟩
  have hstep : ∀ d op, LedgerInv d → LedgerInv (applyOp d op) := by
    rintro d op ⟨ts, bs, tc, ac, cc, rc, rfl, hinv⟩
    cases op with
    | coverOp c now saveOk =>
      show LedgerInv (addCoverLetterCost (mkDoc ts bs tc ac cc rc) c now saveOk).2
      rw [addCoverLetterCost_mkDoc]
      exact ⟨now, bs, tc + c, ac, cc + c, rc + 1, rfl, by linarith⟩
    | analysisOp r now saveOk =>
      show LedgerInv (addAnalysis (mkDoc ts bs tc ac cc rc) r now saveOk).2
      unfold addAnalysis
      cases hap : appendToLastBatch (mkDoc ts bs tc ac cc rc) r with
      | error e =>
        simp only [hap]
        exact ⟨ts, bs, tc, ac, cc, rc, rfl, hinv⟩
      | ok d1 =>
        obtain ⟨bs2, rfl⟩ := appendToLastBatch_ok_shape ts bs tc ac cc rc r d1 hap
        simp only [hap]
        cases hg : r.pyGet "analysis_cost" (.num 0) with
        | error e =>
          simp only [hg]
          exact ⟨ts, bs2, tc, ac, cc, rc, rfl, hinv⟩
        | ok c =>
          simp only [hg]
          cases hb : bumpUsage (mkDoc ts bs2 tc ac cc rc) "analysis_costs" c with
          | error e =>
            simp only [hb]
            exact ⟨ts, bs2, tc, ac, cc, rc, rfl, hinv⟩
          | ok d2 =>
            obtain ⟨q, rfl, rfl⟩ :=
              bumpUsage_analysis_ok_shape ts bs2 tc ac cc rc c d2 hb
            simp only [hb, bumpUsage_mkDoc_total, bumpUsage_mkDoc_requests,
              setItem_mkDoc_timestamp]
            exact ⟨now, bs2, tc + q, ac + q, cc, rc + 1, rfl, by linarith⟩
  refine ⟨hinit, hstep, ?_⟩
  intro d ops hd
  induction ops generalizing d with
  | nil => exact hd
  | cons op rest ih => exact ih (applyOp d op) (hstep d op hd)

/-- Witness for C1: a two-call sequence from the fresh document, with one
failing save. -/
theorem apiUsage_total_invariant_witness :
    LedgerInv (runOps (initializeData "t0")
      [.analysisOp (.dict [("file_name", .str "a.pdf"),
          ("analysis_cost", .num 3)]) "t1" true,
       .coverOp 2 "t2" false]) :=
  apiUsage_total_invariant.2.2 (initializeData "t0") _
    (apiUsage_total_invariant.1 "t0")

/-- The temporary `compressed_{name}` path differs from the original. -/
theorem compressed_name_ne (s : String) : ("compressed_" ++ s) ≠ s := by
  intro h
  have hd := congrArg String.data h
  rw [string_data_app] at hd
  have hlen := congrArg List.length hd
  rw [List.length_append] at hlen
  simp at hlen

/-- C2: `move_to_in_progress` (`app/core/file_manager.py`) on an existing
oversized file first attempts compression and moves the file — from its
directory into `in_progress`, keeping its name — exactly when compression
brings it under the limit; when the file is missing, or it is oversized
and compression fails (the re-encode raises, or its output is still over
the limit), no result is returned and the file is not moved. -/
theorem moveToInProgress_compression (inProg : String) (maxMB : ℕ) (fs : FSt)
    (p : FPath) (readOk : Bool) (outSize : ℕ) :
    (fs p = none →
      moveToInProgress inProg maxMB fs p readOk outSize = (none, fs)) ∧
    (∀ sz, fs p = some sz → validateFileSizeC maxMB sz = false →
      p.dir ≠ inProg →
      ((readOk = true ∧ validateFileSizeC maxMB outSize = true →
        (moveToInProgress inProg maxMB fs p readOk outSize).1 =
          some ⟨inProg, p.name⟩ ∧
        (moveToInProgress inProg maxMB fs p readOk outSize).2
          ⟨inProg, p.name⟩ = some outSize ∧
        (moveToInProgress inProg maxMB fs p readOk outSize).2 p = none) ∧
      (¬(readOk = true ∧ validateFileSizeC maxMB outSize = true) →
        (moveToInProgress inProg maxMB fs p readOk outSize).1 = none ∧
        (moveToInProgress inProg maxMB fs p readOk outSize).2 p = some sz ∧
        (moveToInProgress inProg maxMB fs p readOk outSize).2
          ⟨inProg, p.name⟩ = fs ⟨inProg, p.name⟩))) := by
  constructor
  · intro h
    unfold moveToInProgress
    rw [h]
  · intro sz hp hbig hdir
    have hdst_ne_p : (⟨inProg, p.name⟩ : FPath) ≠ p := by
      intro h
      exact hdir (congrArg FPath.dir h).symm
    have hcp_ne_p : (⟨p.dir, "compressed_" ++ p.name⟩ : FPath) ≠ p := by
      intro h
      exact compressed_name_ne p.name (congrArg FPath.name h)
    have hdst_ne_cp :
        (⟨inProg, p.name⟩ : FPath) ≠ ⟨p.dir, "compressed_" ++ p.name⟩ := by
      intro h
      exact hdir ((congrArg FPath.dir h)).symm
    unfold moveToInProgress compressPdf
    rw [hp]
    simp only [hbig, Bool.not_false, if_true]
    cases readOk with
    | false =>
      simp only [Bool.not_false, Bool.not_true, if_false, if_true]
      constructor
      · rintro ⟨h, -⟩; exact absurd h (by simp)
      · intro _
        exact ⟨rfl, hp, rfl⟩
    | true =>
      simp only [Bool.not_true, if_false]
      cases hout : validateFileSizeC maxMB outSize with
      | true =>
        simp only [if_true]
        constructor
        · intro _
          refine ⟨rfl, ?_, ?_⟩ <;>
            simp [moveFile, FSt.upd, hdst_ne_p, hdst_ne_p.symm, hcp_ne_p,
              hcp_ne_p.symm, hdst_ne_cp, hdst_ne_cp.symm]
        · intro hno
          exact absurd (by simp) hno
      | false =>
        simp only [Bool.false_eq_true, if_false]
        constructor
        · rintro ⟨-, h⟩
          exact h.elim
        · intro _
          refine ⟨by trivial, ?_, ?_⟩
          · unfold FSt.upd
            simp only [if_neg hcp_ne_p.symm]
            exact hp
          · unfold FSt.upd
            simp only [if_neg hdst_ne_cp]

/-- Witness for C2: an 11 MiB `new/offer.pdf` against a 10 MB limit, with
a compression oracle that succeeds at 1000 bytes. -/
theorem moveToInProgress_compression_witness :
    (moveToInProgress "in_progress" 10 oversizedFs ⟨"new", "offer.pdf"⟩
        true 1000).1 = some ⟨"in_progress", "offer.pdf"⟩ ∧
    (moveToInProgress "in_progress" 10 oversizedFs ⟨"new", "offer.pdf"⟩
        true 1000).2 ⟨"in_progress", "offer.pdf"⟩ = some 1000 ∧
    (moveToInProgress "in_progress" 10 oversizedFs ⟨"new", "offer.pdf"⟩
        true 1000).2 ⟨"new", "offer.pdf"⟩ = none :=
  ((moveToInProgress_compression "in_progress" 10 oversizedFs
      ⟨"new", "offer.pdf"⟩ true 1000).2 11534336 rfl
    (by simp only [validateFileSizeC, decide_eq_false_iff_not]; norm_num)
    (by decide)).1
    ⟨rfl, by simp only [validateFileSizeC, decide_eq_true_eq]; norm_num⟩

end JobSetMatch

